import Mathlib

/-!
Shallow embedding of the access-control core of the dashboard project:
the role (de)serialisation helpers, the registration / login / user
management operations of AuthManager (src/services/auth_manager.py) over
the users table managed by DatabaseManager (src/services/database_manager.py).

Python strings are modelled as lists of characters (a Python str is a
sequence of code points); the helpers pyStrip, pySplit and pyJoin mirror
str.strip, str.split and str.join on the ASCII whitespace characters that
occur in this code base.

The storage layer is modelled after the observable semantics of the
sqlite3 binding used by DatabaseManager: every call opens a fresh
connection, so cursor.lastrowid is the new row id after a successful
INSERT and 0 (the last-insert-rowid of a fresh connection, CPython 3.11
semantics) after UPDATE or DELETE; a UNIQUE constraint violation raises
and is absorbed into a None result with no change to the table.
bcrypt.hashpw and bcrypt.checkpw are external primitives: the operations
are parameterised over them, and a concrete instantiation is used for
evaluation.
-/

/-- Python str modelled as its list of code points. -/
abbrev Str := List Char

/-- ASCII whitespace stripped by str.strip with no arguments. -/
def pyIsSpace (c : Char) : Bool :=
  c == ' ' || c == '\t' || c == '\n' || c == '\x0d' || c == '\x0b' || c == '\x0c'

/-- Python str.strip: drop leading and trailing whitespace. -/
def pyStrip (s : Str) : Str :=
  ((s.dropWhile pyIsSpace).reverse.dropWhile pyIsSpace).reverse

/-- Python str.split with a one-character separator. -/
def pySplit (sep : Char) : Str → List Str
  | [] => [[]]
  | c :: cs =>
    match pySplit sep cs with
    | [] => [[]]
    | g :: gs => if c = sep then [] :: g :: gs else (c :: g) :: gs

/-- Python sep.join over a list of strings. -/
def pyJoin (sep : Char) : List Str → Str
  | [] => []
  | [x] => x
  | x :: y :: xs => x ++ sep :: pyJoin sep (y :: xs)

/-- DEFAULT_ROLE_SENTINEL from auth_manager.py: stored when a user has no roles. -/
def DEFAULT_ROLE_SENTINEL : Str := "none".data

/-- VALID_ROLES from auth_manager.py. -/
def VALID_ROLES : List Str :=
  ["cybersec_eng".data, "data_analyst".data, "it_ops".data, "admin".data]

/-- ROLE_REMAP from auth_manager.py: legacy role spellings mapped to canonical ones. -/
def ROLE_REMAP : List (Str × Str) :=
  [("cyber_analyst".data, "cybersec_eng".data),
   ("cyber".data, "cybersec_eng".data),
   ("data_scientist".data, "data_analyst".data)]

/-- Python ROLE_REMAP.get(role, role): look the role up, defaulting to itself. -/
def remapLookup (role : Str) : Str :=
  match ROLE_REMAP.find? (fun p => p.1 == role) with
  | some p => p.2
  | none => role

/-- AuthManager._serialise_roles: filter to the valid set and comma-join,
with the sentinel standing in for an empty result. -/
def serialise_roles (roles : List Str) : Str :=
  let cleaned := roles.filter (fun role => VALID_ROLES.contains role)
  if cleaned.isEmpty then DEFAULT_ROLE_SENTINEL else pyJoin ',' cleaned

/-- AuthManager._parse_roles: split the stored string, strip entries, drop
empties, apply the legacy remap, and filter to the valid set. -/
def parse_roles (raw_roles : Str) : List Str :=
  if raw_roles = [] ∨ raw_roles = DEFAULT_ROLE_SENTINEL then []
  else
    let cleaned := ((pySplit ',' raw_roles).map pyStrip).filter (fun s => s ≠ [])
    let mapped := cleaned.map remapLookup
    mapped.filter (fun role => VALID_ROLES.contains role)

/-- Row of the users table: id INTEGER PRIMARY KEY AUTOINCREMENT,
username TEXT UNIQUE NOT NULL, password_hash TEXT NOT NULL, role TEXT NOT NULL. -/
structure Row where
  id : Nat
  username : Str
  password_hash : Str
  role : Str
deriving DecidableEq, Repr

/-- State of the users table: its rows in rowid order plus the next
AUTOINCREMENT id. -/
structure DB where
  rows : List Row
  nextId : Nat
deriving DecidableEq, Repr

/-- Uniqueness of usernames, as enforced by the UNIQUE NOT NULL column. -/
def DB.WF (db : DB) : Prop :=
  db.rows.Pairwise (fun a b => a.username ≠ b.username)

instance (db : DB) : Decidable db.WF := by
  unfold DB.WF; infer_instance

/-- SELECT ... FROM users WHERE username = ? through fetch_one: the first
matching row as an optional result. -/
def fetchOneByUsername (db : DB) (u : Str) : Option Row :=
  db.rows.find? (fun r => r.username == u)

/-- INSERT INTO users (username, password_hash, role) VALUES (?, ?, ?)
through execute: on a UNIQUE violation the statement raises, execute
logs and returns None and the table is unchanged; otherwise the row is
appended and the fresh cursor reports its rowid. -/
def insertUser (db : DB) (u h role : Str) : Option Nat × DB :=
  if db.rows.any (fun r => r.username == u) then (none, db)
  else (some db.nextId, ⟨db.rows ++ [⟨db.nextId, u, h, role⟩], db.nextId + 1⟩)

/-- UPDATE users SET role = ? WHERE username = ? through execute: the
statement always succeeds, and lastrowid of the fresh connection is 0. -/
def updateRoleCol (db : DB) (u role : Str) : Option Nat × DB :=
  (some 0,
   ⟨db.rows.map (fun r => if r.username == u then { r with role := role } else r),
    db.nextId⟩)

/-- UPDATE users SET password_hash = ? WHERE username = ? through execute. -/
def updatePasswordCol (db : DB) (u h : Str) : Option Nat × DB :=
  (some 0,
   ⟨db.rows.map (fun r => if r.username == u then { r with password_hash := h } else r),
    db.nextId⟩)

/-- DELETE FROM users WHERE username = ? through execute. -/
def deleteByUsername (db : DB) (u : Str) : Option Nat × DB :=
  (some 0, ⟨db.rows.filter (fun r => !(r.username == u)), db.nextId⟩)

/-- User from models/user.py as produced by login_user. -/
structure User where
  username : Str
  roles : List Str
deriving DecidableEq, Repr

/-- Row dictionary returned by get_all_users: id, username, role, plus the
parsed roles list added by the loop. -/
structure UserEntry where
  id : Nat
  username : Str
  role : Str
  roles : List Str
deriving DecidableEq, Repr

/-- Lexicographic comparison of code-point lists, matching the BINARY
collation of ORDER BY username on the ASCII data this table stores. -/
def lexLe : Str → Str → Bool
  | [], _ => true
  | _ :: _, [] => false
  | a :: as, b :: bs => if a < b then true else if b < a then false else lexLe as bs

/-- Insert one row into a list sorted by username. -/
def insertRowSorted (r : Row) : List Row → List Row
  | [] => [r]
  | s :: ss => if lexLe r.username s.username then r :: s :: ss else s :: insertRowSorted r ss

/-- ORDER BY username as an insertion sort over the rows. -/
def orderByUsername : List Row → List Row
  | [] => []
  | r :: rs => insertRowSorted r (orderByUsername rs)

/-- AuthManager.register_user. hashpw stands for bcrypt.hashpw with a
fresh salt. -/
def register_user (hashpw : Str → Str) (db : DB) (username password : Str) :
    (Bool × Str) × DB :=
  let u := pyStrip username
  if u = [] ∨ password = [] then
    ((false, "Username and password are required.".data), db)
  else
    match fetchOneByUsername db u with
    | some _ => ((false, "Username already exists.".data), db)
    | none =>
      let db2 := (insertUser db u (hashpw password) DEFAULT_ROLE_SENTINEL).2
      ((true, "Registration successful. Ask an admin to assign roles.".data), db2)

/-- AuthManager.create_user: admin variant of registration with an initial
role list serialised through the same filter. -/
def create_user (hashpw : Str → Str) (db : DB) (username password : Str)
    (roles : List Str) : (Bool × Str) × DB :=
  let u := pyStrip username
  if u = [] ∨ password = [] then
    ((false, "Username and password are required.".data), db)
  else
    match fetchOneByUsername db u with
    | some _ => ((false, "Username already exists.".data), db)
    | none =>
      let db2 := (insertUser db u (hashpw password) (serialise_roles roles)).2
      ((true, "User created.".data), db2)

/-- AuthManager.login_user. checkpw stands for bcrypt.checkpw wrapped by
_verify_password, false on mismatch or malformed hash. -/
def login_user (checkpw : Str → Str → Bool) (db : DB) (username password : Str) :
    Option User :=
  let u := pyStrip username
  if u = [] ∨ password = [] then none
  else
    match fetchOneByUsername db u with
    | none => none
    | some row =>
      if checkpw password row.password_hash then
        some ⟨row.username, parse_roles row.role⟩
      else none

/-- AuthManager.get_all_users: every row ordered by username, each with its
parsed roles list attached. -/
def get_all_users (db : DB) : List UserEntry :=
  (orderByUsername db.rows).map (fun r => ⟨r.id, r.username, r.role, parse_roles r.role⟩)

/-- AuthManager.update_user_roles: serialise and UPDATE, reporting whether
execute returned a non-None result. -/
def update_user_roles (db : DB) (username : Str) (roles : List Str) : Bool × DB :=
  let (res, db2) := updateRoleCol db username (serialise_roles roles)
  (res.isSome, db2)

/-- AuthManager.update_user_password: reject an empty password, otherwise
hash and UPDATE. -/
def update_user_password (hashpw : Str → Str) (db : DB) (username newPassword : Str) :
    Bool × DB :=
  if newPassword = [] then (false, db)
  else
    let (res, db2) := updatePasswordCol db username (hashpw newPassword)
    (res.isSome, db2)

/-- AuthManager.delete_user: the built-in admin is protected, every other
username is deleted. -/
def delete_user (db : DB) (username : Str) : Bool × DB :=
  if username = "admin".data then (false, db)
  else
    let (res, db2) := deleteByUsername db username
    (res.isSome, db2)

/-- AuthManager.ensure_admin_user: insert the default admin account when no
row named admin exists. -/
def ensure_admin_user (hashpw : Str → Str) (db : DB) : DB :=
  match fetchOneByUsername db "admin".data with
  | some _ => db
  | none => (insertUser db "admin".data (hashpw "admin".data) "admin".data).2

/-- Concrete stand-in for bcrypt.hashpw used to evaluate the model. -/
def hashModel (p : Str) : Str := 'h' :: p

/-- Concrete stand-in for bcrypt.checkpw used to evaluate the model. -/
def checkModel (p h : Str) : Bool := h == 'h' :: p

/-- Empty users table. -/
def emptyDB : DB := ⟨[], 1⟩

/-- Sample one-user table used to evaluate the operations: alice with the
admin role and the modelled hash of pw. -/
def dbAlice : DB := ⟨[⟨1, "alice".data, 'h' :: "pw".data, "admin".data⟩], 2⟩

/-! Helper lemmas about the string primitives. -/

theorem pySplit_cons (sep c : Char) (cs : Str) :
    pySplit sep (c :: cs) =
      match pySplit sep cs with
      | [] => [[]]
      | g :: gs => if c = sep then [] :: g :: gs else (c :: g) :: gs := rfl

theorem pySplit_ne_nil (sep : Char) (s : Str) : pySplit sep s ≠ [] := by
  induction s with
  | nil => simp [pySplit]
  | cons c cs ih =>
    rw [pySplit_cons]
    cases h : pySplit sep cs with
    | nil => simp
    | cons g gs =>
      show (if c = sep then [] :: g :: gs else (c :: g) :: gs) ≠ []
      split <;> simp

theorem pySplit_no_sep (sep : Char) (s : Str) (h : sep ∉ s) : pySplit sep s = [s] := by
  induction s with
  | nil => rfl
  | cons c cs ih =>
    have hc : ¬ c = sep := fun e => h (e ▸ List.mem_cons_self c cs)
    have hcs : pySplit sep cs = [cs] := ih (fun m => h (List.mem_cons_of_mem _ m))
    simp [pySplit, hcs, hc]

theorem pySplit_append (sep : Char) (a b : Str) (h : sep ∉ a) :
    pySplit sep (a ++ sep :: b) = a :: pySplit sep b := by
  induction a with
  | nil =>
    simp only [List.nil_append, pySplit]
    cases hb : pySplit sep b with
    | nil => exact absurd hb (pySplit_ne_nil sep b)
    | cons g gs => simp
  | cons c a ih =>
    have hc : ¬ c = sep := fun e => h (e ▸ List.mem_cons_self c a)
    have ha : pySplit sep (a ++ sep :: b) = a :: pySplit sep b :=
      ih (fun m => h (List.mem_cons_of_mem _ m))
    rw [List.cons_append, pySplit_cons, ha]
    simp [hc]

theorem pySplit_pyJoin (sep : Char) (l : List Str) (hne : l ≠ [])
    (h : ∀ x ∈ l, sep ∉ x) : pySplit sep (pyJoin sep l) = l := by
  induction l with
  | nil => exact absurd rfl hne
  | cons x xs ih =>
    cases xs with
    | nil => exact pySplit_no_sep sep x (h x (List.mem_cons_self x []))
    | cons y ys =>
      have hx : sep ∉ x := h x (List.mem_cons_self _ _)
      have hrest : ∀ z ∈ y :: ys, sep ∉ z := fun z hz => h z (List.mem_cons_of_mem _ hz)
      calc pySplit sep (pyJoin sep (x :: y :: ys))
          = pySplit sep (x ++ sep :: pyJoin sep (y :: ys)) := rfl
        _ = x :: pySplit sep (pyJoin sep (y :: ys)) := pySplit_append sep x _ hx
        _ = x :: y :: ys := by rw [ih (by simp) hrest]

/-- Facts checked per valid role: comma-free, whitespace-free at the edges,
nonempty, and not a legacy alias key. -/
theorem valid_role_facts :
    ∀ x ∈ VALID_ROLES, ',' ∉ x ∧ pyStrip x = x ∧ x ≠ [] ∧ remapLookup x = x := by
  decide

/-- Every element produced by parse_roles lies in the fixed valid set. -/
theorem parse_roles_subset (raw : Str) (r : Str) (h : r ∈ parse_roles raw) :
    r ∈ VALID_ROLES := by
  unfold parse_roles at h
  split at h
  · simp at h
  · have := List.mem_filter.mp h
    simpa using this.2

/-- C2: deserialising the serialisation of any role list returns exactly the
valid entries of the list, in order, duplicates preserved; invalid entries
are silently dropped and no error is possible. -/
theorem parse_serialise_roundtrip (roles : List Str) :
    parse_roles (serialise_roles roles) =
      roles.filter (fun role => VALID_ROLES.contains role) := by
  set cleaned := roles.filter (fun role => VALID_ROLES.contains role) with hcl
  have hmem : ∀ x ∈ cleaned, x ∈ VALID_ROLES := by
    intro x hx
    have := (List.mem_filter.mp hx).2
    simpa using this
  have hser : serialise_roles roles =
      if cleaned.isEmpty then DEFAULT_ROLE_SENTINEL else pyJoin ',' cleaned := by
    simp only [serialise_roles, hcl]
  by_cases hc : cleaned = []
  · rw [hser, hc]
    decide
  · rw [hser, if_neg (by simpa [List.isEmpty_iff] using hc)]
    have hjoin : pySplit ',' (pyJoin ',' cleaned) = cleaned :=
      pySplit_pyJoin ',' cleaned hc (fun x hx => (valid_role_facts x (hmem x hx)).1)
    have hraw_ne : pyJoin ',' cleaned ≠ [] := by
      intro h0
      rw [h0] at hjoin
      have hnil : ([] : Str) ∈ cleaned := by
        rw [← hjoin]; decide
      exact absurd (hmem [] hnil) (by decide)
    have hraw_sent : pyJoin ',' cleaned ≠ DEFAULT_ROLE_SENTINEL := by
      intro h0
      rw [h0] at hjoin
      have hsent : DEFAULT_ROLE_SENTINEL ∈ cleaned := by
        rw [← hjoin]; decide
      exact absurd (hmem _ hsent) (by decide)
    have h1 : cleaned.map pyStrip = cleaned := by
      rw [List.map_congr_left (fun a ha => (valid_role_facts a (hmem a ha)).2.1)]
      simp
    have h2 : cleaned.filter (fun s => s ≠ []) = cleaned :=
      List.filter_eq_self.mpr fun a ha => by
        simpa using (valid_role_facts a (hmem a ha)).2.2.1
    have h3 : cleaned.map remapLookup = cleaned := by
      rw [List.map_congr_left (fun a ha => (valid_role_facts a (hmem a ha)).2.2.2)]
      simp
    have h4 : cleaned.filter (fun role => VALID_ROLES.contains role) = cleaned :=
      List.filter_eq_self.mpr fun a ha => by simpa using hmem a ha
    rw [parse_roles, if_neg (by rintro (h | h); exacts [hraw_ne h, hraw_sent h])]
    show ((((pySplit ',' (pyJoin ',' cleaned)).map pyStrip).filter
        (fun s => s ≠ [])).map remapLookup).filter
        (fun role => VALID_ROLES.contains role) = cleaned
    rw [hjoin, h1, h2, h3, h4]

/-- C8: serialising the empty role list yields the sentinel, which is not the
empty string, and deserialising the sentinel yields the empty role list. -/
theorem serialise_empty_sentinel :
    serialise_roles [] = DEFAULT_ROLE_SENTINEL ∧ DEFAULT_ROLE_SENTINEL ≠ [] ∧
      parse_roles DEFAULT_ROLE_SENTINEL = [] := by
  decide

/-- C9: deserialising any legacy alias key of ROLE_REMAP yields exactly the
one-element list of its canonical role. -/
theorem parse_legacy_alias : ∀ p ∈ ROLE_REMAP, parse_roles p.1 = [p.2] := by
  decide

/-- Witness for parse_legacy_alias at the alias cyber. -/
theorem parse_legacy_alias_witness :
    parse_roles "cyber".data = ["cybersec_eng".data] :=
  parse_legacy_alias ("cyber".data, "cybersec_eng".data) (by decide)

/-- Unfolding equation for login_user. -/
theorem login_user_eq (checkpw : Str → Str → Bool) (db : DB) (username password : Str) :
    login_user checkpw db username password =
      if pyStrip username = [] ∨ password = [] then none
      else
        match fetchOneByUsername db (pyStrip username) with
        | none => none
        | some row =>
          if checkpw password row.password_hash then
            some ⟨row.username, parse_roles row.role⟩
          else none := rfl

/-- Unfolding equation for register_user. -/
theorem register_user_eq (hashpw : Str → Str) (db : DB) (username password : Str) :
    register_user hashpw db username password =
      if pyStrip username = [] ∨ password = [] then
        ((false, "Username and password are required.".data), db)
      else
        match fetchOneByUsername db (pyStrip username) with
        | some _ => ((false, "Username already exists.".data), db)
        | none =>
          ((true, "Registration successful. Ask an admin to assign roles.".data),
           (insertUser db (pyStrip username) (hashpw password) DEFAULT_ROLE_SENTINEL).2) := rfl

/-- Inversion for a successful login: some result forces a stored row whose
hash check passed, and the identity is built from that row. -/
theorem login_user_some_inv (checkpw : Str → Str → Bool) (db : DB)
    (username password : Str) (user : User)
    (h : login_user checkpw db username password = some user) :
    ∃ row, fetchOneByUsername db (pyStrip username) = some row ∧
      checkpw password row.password_hash = true ∧
      user = ⟨row.username, parse_roles row.role⟩ := by
  rw [login_user_eq] at h
  by_cases hg : pyStrip username = [] ∨ password = []
  · rw [if_pos hg] at h
    cases h
  · rw [if_neg hg] at h
    cases hrow : fetchOneByUsername db (pyStrip username) with
    | none =>
      rw [hrow] at h
      cases h
    | some row =>
      rw [hrow] at h
      by_cases hcp : checkpw password row.password_hash
      · have h2 : (if checkpw password row.password_hash then
            some (User.mk row.username (parse_roles row.role)) else none) = some user := h
        rw [if_pos hcp] at h2
        exact ⟨row, rfl, hcp, (Option.some.inj h2).symm⟩
      · have h2 : (if checkpw password row.password_hash then
            some (User.mk row.username (parse_roles row.role)) else none) = some user := h
        rw [if_neg hcp] at h2
        cases h2

/-- C1: login_user returns none on an empty trimmed username, an empty
password, an unknown username, or a failed password check, and returns an
identity only when the stored hash matches. -/
theorem login_user_fails_closed (checkpw : Str → Str → Bool) (db : DB)
    (username password : Str) :
    (pyStrip username = [] → login_user checkpw db username password = none) ∧
    (password = [] → login_user checkpw db username password = none) ∧
    (fetchOneByUsername db (pyStrip username) = none →
      login_user checkpw db username password = none) ∧
    (∀ row, fetchOneByUsername db (pyStrip username) = some row →
      checkpw password row.password_hash = false →
      login_user checkpw db username password = none) ∧
    (∀ user, login_user checkpw db username password = some user →
      ∃ row, fetchOneByUsername db (pyStrip username) = some row ∧
        checkpw password row.password_hash = true ∧
        user = ⟨row.username, parse_roles row.role⟩) := by
  refine ⟨?_, ?_, ?_, ?_, ?_⟩
  · intro h
    simp [login_user_eq, h]
  · intro h
    simp [login_user_eq, h]
  · intro h
    rw [login_user_eq, h]
    split <;> rfl
  · intro row hrow hcp
    rw [login_user_eq, hrow]
    split
    · rfl
    · simp [hcp]
  · intro user h
    exact login_user_some_inv checkpw db username password user h

/-- Witness for login_user_fails_closed: empty username and wrong password
both yield none on a concrete table. -/
theorem login_user_fails_closed_witness :
    login_user checkModel emptyDB "".data "pw".data = none ∧
    login_user checkModel
      ⟨[⟨1, "alice".data, 'h' :: "pw".data, "admin".data⟩], 2⟩
      "alice".data "wrong".data = none :=
  ⟨(login_user_fails_closed checkModel emptyDB "".data "pw".data).1 (by decide),
   (login_user_fails_closed checkModel
      ⟨[⟨1, "alice".data, 'h' :: "pw".data, "admin".data⟩], 2⟩
      "alice".data "wrong".data).2.2.2.1
     ⟨1, "alice".data, 'h' :: "pw".data, "admin".data⟩ (by decide) (by decide)⟩

/-- C3 counterexample: the password is checked untrimmed, so a
whitespace-only password trims to empty yet registration succeeds and
creates the account. -/
theorem register_whitespace_password_cex :
    pyStrip "   ".data = [] ∧
    (register_user hashModel emptyDB "bob".data "   ".data).1.1 = true ∧
    (fetchOneByUsername
      (register_user hashModel emptyDB "bob".data "   ".data).2 "bob".data).isSome
      = true := by
  decide

/-- C3 amended: register_user fails with the required-fields message and
leaves the table untouched when the trimmed username is empty or the
password is the empty string; the password itself is not trimmed. -/
theorem register_rejects_empty (hashpw : Str → Str) (db : DB) (username password : Str)
    (h : pyStrip username = [] ∨ password = []) :
    register_user hashpw db username password =
      ((false, "Username and password are required.".data), db) := by
  rw [register_user_eq, if_pos h]

/-- Witness for register_rejects_empty: a whitespace username is rejected and
the table stays empty. -/
theorem register_rejects_empty_witness :
    register_user hashModel emptyDB "  ".data "pw".data =
      ((false, "Username and password are required.".data), emptyDB) :=
  register_rejects_empty hashModel emptyDB "  ".data "pw".data (by decide)

/-- Mapping a function that fixes every element of a list is the identity. -/
theorem map_eq_self_of_eq {α : Type} {l : List α} {f : α → α}
    (h : ∀ a ∈ l, f a = a) : l.map f = l := by
  induction l with
  | nil => rfl
  | cons a as ih =>
    rw [List.map_cons, h a (List.mem_cons_self a as),
      ih (fun b hb => h b (List.mem_cons_of_mem a hb))]

/-- Unfolding equation for update_user_roles: the UPDATE always reports a
non-None lastrowid, so the returned flag is true. -/
theorem update_user_roles_eq (db : DB) (u : Str) (roles : List Str) :
    update_user_roles db u roles =
      (true,
       ⟨db.rows.map (fun r =>
          if r.username == u then { r with role := serialise_roles roles } else r),
        db.nextId⟩) := rfl

/-- Unfolding equation for update_user_password with a non-empty password. -/
theorem update_user_password_eq (hashpw : Str → Str) (db : DB) (u pw : Str)
    (hpw : pw ≠ []) :
    update_user_password hashpw db u pw =
      (true,
       ⟨db.rows.map (fun r =>
          if r.username == u then { r with password_hash := hashpw pw } else r),
        db.nextId⟩) := by
  rw [update_user_password, if_neg hpw]
  rfl

/-- Unfolding equation for delete_user on a username other than admin. -/
theorem delete_user_eq (db : DB) (u : Str) (hu : u ≠ "admin".data) :
    delete_user db u =
      (true, ⟨db.rows.filter (fun r => !(r.username == u)), db.nextId⟩) := by
  rw [delete_user, if_neg hu]
  rfl

/-- C5: deleting admin fails and leaves the table untouched; deleting any
other username reports success and the username is no longer retrievable. -/
theorem delete_user_spec (db : DB) (u : Str) :
    delete_user db "admin".data = (false, db) ∧
    (u ≠ "admin".data →
      (delete_user db u).1 = true ∧
      fetchOneByUsername (delete_user db u).2 u = none) := by
  constructor
  · rw [delete_user, if_pos rfl]
  · intro hu
    rw [delete_user_eq db u hu]
    refine ⟨rfl, ?_⟩
    unfold fetchOneByUsername
    apply List.find?_eq_none.mpr
    intro x hx
    simpa using (List.mem_filter.mp hx).2

/-- Witness for delete_user_spec on a table holding alice. -/
theorem delete_user_spec_witness :
    delete_user dbAlice "admin".data = (false, dbAlice) ∧
    (delete_user dbAlice "alice".data).1 = true ∧
    fetchOneByUsername (delete_user dbAlice "alice".data).2 "alice".data = none :=
  ⟨(delete_user_spec dbAlice "alice".data).1,
   ((delete_user_spec dbAlice "alice".data).2 (by decide)).1,
   ((delete_user_spec dbAlice "alice".data).2 (by decide)).2⟩

/-- C4 counterexample: on the empty table bob is unknown, yet set_roles,
set_password and delete all report true, because execute returns the
lastrowid of a fresh connection (0, not None) for UPDATE and DELETE. -/
theorem unknown_username_ops_cex :
    fetchOneByUsername emptyDB "bob".data = none ∧
    (update_user_roles emptyDB "bob".data []).1 = true ∧
    (update_user_password hashModel emptyDB "bob".data "x".data).1 = true ∧
    (delete_user emptyDB "bob".data).1 = true := by
  decide

/-- C4 amended: for an unknown username, set_roles, set_password with a
non-empty password, and delete of a non-admin username all return true and
leave the table unchanged; False/None never signals an unknown username. -/
theorem unknown_username_ops_amended (hashpw : Str → Str) (db : DB) (u : Str)
    (roles : List Str) (pw : Str)
    (hmiss : fetchOneByUsername db u = none) (hadmin : u ≠ "admin".data)
    (hpw : pw ≠ []) :
    update_user_roles db u roles = (true, db) ∧
    update_user_password hashpw db u pw = (true, db) ∧
    delete_user db u = (true, db) := by
  have hnone : ∀ r ∈ db.rows, (r.username == u) = false := by
    intro r hr
    simpa using List.find?_eq_none.mp hmiss r hr
  have hmap1 : db.rows.map (fun r =>
      if r.username == u then { r with role := serialise_roles roles } else r) = db.rows :=
    map_eq_self_of_eq (fun a ha => by simp [hnone a ha])
  have hmap2 : db.rows.map (fun r =>
      if r.username == u then { r with password_hash := hashpw pw } else r) = db.rows :=
    map_eq_self_of_eq (fun a ha => by simp [hnone a ha])
  have hfil : db.rows.filter (fun r => !(r.username == u)) = db.rows :=
    List.filter_eq_self.mpr fun a ha => by simp [hnone a ha]
  refine ⟨?_, ?_, ?_⟩
  · rw [update_user_roles_eq, hmap1]
  · rw [update_user_password_eq hashpw db u pw hpw, hmap2]
  · rw [delete_user_eq db u hadmin, hfil]

/-- Witness for unknown_username_ops_amended at bob on the empty table. -/
theorem unknown_username_ops_amended_witness :
    update_user_roles emptyDB "bob".data [] = (true, emptyDB) ∧
    update_user_password hashModel emptyDB "bob".data "x".data = (true, emptyDB) ∧
    delete_user emptyDB "bob".data = (true, emptyDB) :=
  unknown_username_ops_amended hashModel emptyDB "bob".data [] "x".data
    (by decide) (by decide) (by decide)

/-- C7: registering twice with the same username from a state where it is
free: the first call succeeds, the second reports the duplicate message and
leaves the table exactly as the first call left it. -/
theorem register_duplicate_spec (hashpw : Str → Str) (db : DB)
    (username pw1 pw2 : Str)
    (hu : pyStrip username ≠ []) (h1 : pw1 ≠ []) (h2 : pw2 ≠ [])
    (hfresh : fetchOneByUsername db (pyStrip username) = none) :
    (register_user hashpw db username pw1).1.1 = true ∧
    register_user hashpw (register_user hashpw db username pw1).2 username pw2 =
      ((false, "Username already exists.".data),
       (register_user hashpw db username pw1).2) := by
  have hg1 : ¬(pyStrip username = [] ∨ pw1 = []) := by
    rintro (h | h)
    exacts [hu h, h1 h]
  have hg2 : ¬(pyStrip username = [] ∨ pw2 = []) := by
    rintro (h | h)
    exacts [hu h, h2 h]
  have hany : db.rows.any (fun r => r.username == pyStrip username) = false := by
    cases hval : db.rows.any (fun r => r.username == pyStrip username) with
    | false => rfl
    | true =>
      obtain ⟨r, hr, hp⟩ := List.any_eq_true.mp hval
      exact absurd hp (by simpa using List.find?_eq_none.mp hfresh r hr)
  have hins : insertUser db (pyStrip username) (hashpw pw1) DEFAULT_ROLE_SENTINEL =
      (some db.nextId,
       ⟨db.rows ++ [⟨db.nextId, pyStrip username, hashpw pw1, DEFAULT_ROLE_SENTINEL⟩],
        db.nextId + 1⟩) := by
    rw [insertUser, hany]
    rfl
  have hr1 : register_user hashpw db username pw1 =
      ((true, "Registration successful. Ask an admin to assign roles.".data),
       ⟨db.rows ++ [⟨db.nextId, pyStrip username, hashpw pw1, DEFAULT_ROLE_SENTINEL⟩],
        db.nextId + 1⟩) := by
    rw [register_user_eq, if_neg hg1, hfresh]
    show ((true, _), (insertUser db (pyStrip username) (hashpw pw1) DEFAULT_ROLE_SENTINEL).2) = _
    rw [hins]
  constructor
  · rw [hr1]
  · rw [hr1]
    rw [register_user_eq, if_neg hg2]
    have hfr : db.rows.find? (fun r => r.username == pyStrip username) = none := hfresh
    have hf2 : fetchOneByUsername
        ⟨db.rows ++ [⟨db.nextId, pyStrip username, hashpw pw1, DEFAULT_ROLE_SENTINEL⟩],
         db.nextId + 1⟩ (pyStrip username) =
        some ⟨db.nextId, pyStrip username, hashpw pw1, DEFAULT_ROLE_SENTINEL⟩ := by
      unfold fetchOneByUsername
      rw [List.find?_append, hfr]
      simp
    rw [hf2]

/-- Witness for register_duplicate_spec: registering bob twice on the empty
table. -/
theorem register_duplicate_spec_witness :
    (register_user hashModel emptyDB "bob".data "pw".data).1.1 = true ∧
    register_user hashModel (register_user hashModel emptyDB "bob".data "pw".data).2
        "bob".data "pw2".data =
      ((false, "Username already exists.".data),
       (register_user hashModel emptyDB "bob".data "pw".data).2) :=
  register_duplicate_spec hashModel emptyDB "bob".data "pw".data "pw2".data
    (by decide) (by decide) (by decide) (by decide)

/-- Unfolding equation for ensure_admin_user. -/
theorem ensure_admin_user_eq (hashpw : Str → Str) (db : DB) :
    ensure_admin_user hashpw db =
      match fetchOneByUsername db "admin".data with
      | some _ => db
      | none => (insertUser db "admin".data (hashpw "admin".data) "admin".data).2 := rfl

/-- With pairwise-distinct usernames, a present username is matched by
exactly one row. -/
theorem count_username_one {rows : List Row} {r : Row} {u : Str}
    (hwf : rows.Pairwise (fun a b => a.username ≠ b.username))
    (hmem : r ∈ rows) (hu : r.username = u) :
    (rows.filter (fun x => x.username == u)).length = 1 := by
  induction rows with
  | nil => cases hmem
  | cons a rest ih =>
    have hpw := List.pairwise_cons.mp hwf
    rcases List.mem_cons.mp hmem with h | h
    · have hau : (a.username == u) = true := by
        rw [h] at hu
        simp [hu]
      have hrest : rest.filter (fun x => x.username == u) = [] :=
        List.filter_eq_nil_iff.mpr fun x hx => by
          have hne : a.username ≠ x.username := hpw.1 x hx
          rw [h] at hu
          simp only [beq_iff_eq]
          exact fun e => hne (hu.trans e.symm)
      rw [List.filter_cons, if_pos hau, hrest]
      rfl
    · have hane : ¬(a.username == u) = true := by
        have hne := hpw.1 r h
        simp [hu] at hne
        simpa using hne
      rw [List.filter_cons, if_neg hane]
      exact ih hpw.2 h

/-- C6: starting from any state with unique usernames, running the admin
bootstrap twice leaves exactly one admin row, and the bootstrap is a no-op
whenever an admin row already exists. -/
theorem ensure_admin_user_idempotent (hashpw : Str → Str) (db : DB) (hwf : db.WF) :
    ((ensure_admin_user hashpw (ensure_admin_user hashpw db)).rows.filter
      (fun r => r.username == "admin".data)).length = 1 ∧
    (fetchOneByUsername db "admin".data ≠ none → ensure_admin_user hashpw db = db) := by
  cases hfa : fetchOneByUsername db "admin".data with
  | some r =>
    have he : ensure_admin_user hashpw db = db := by
      rw [ensure_admin_user_eq, hfa]
    refine ⟨?_, fun _ => he⟩
    rw [he, he]
    exact count_username_one hwf (List.mem_of_find?_eq_some hfa)
      (by simpa using List.find?_some hfa)
  | none =>
    have hnone := List.find?_eq_none.mp hfa
    have hany : db.rows.any (fun r => r.username == "admin".data) = false := by
      cases hval : db.rows.any (fun r => r.username == "admin".data) with
      | false => rfl
      | true =>
        obtain ⟨r, hr, hp⟩ := List.any_eq_true.mp hval
        exact absurd hp (hnone r hr)
    have h1 : ensure_admin_user hashpw db =
        ⟨db.rows ++ [⟨db.nextId, "admin".data, hashpw "admin".data, "admin".data⟩],
         db.nextId + 1⟩ := by
      rw [ensure_admin_user_eq, hfa]
      show (insertUser db "admin".data (hashpw "admin".data) "admin".data).2 = _
      rw [insertUser, hany]
      rfl
    have hfr : db.rows.find? (fun r => r.username == "admin".data) = none := hfa
    have h2 : fetchOneByUsername
        ⟨db.rows ++ [⟨db.nextId, "admin".data, hashpw "admin".data, "admin".data⟩],
         db.nextId + 1⟩ "admin".data =
        some ⟨db.nextId, "admin".data, hashpw "admin".data, "admin".data⟩ := by
      unfold fetchOneByUsername
      rw [List.find?_append, hfr]
      simp
    refine ⟨?_, fun hcon => absurd rfl hcon⟩
    rw [h1, ensure_admin_user_eq, h2]
    show ((db.rows ++
        [(⟨db.nextId, "admin".data, hashpw "admin".data, "admin".data⟩ : Row)]).filter
      (fun r => r.username == "admin".data)).length = 1
    rw [List.filter_append, List.filter_eq_nil_iff.mpr hnone]
    rfl

/-- Witness for ensure_admin_user_idempotent starting from the empty table. -/
theorem ensure_admin_user_idempotent_witness :
    ((ensure_admin_user hashModel (ensure_admin_user hashModel emptyDB)).rows.filter
      (fun r => r.username == "admin".data)).length = 1 :=
  (ensure_admin_user_idempotent hashModel emptyDB (by decide)).1

/-- Membership after sorted insertion comes from the new row or the list. -/
theorem mem_of_mem_insertRowSorted {x r : Row} {l : List Row}
    (h : x ∈ insertRowSorted r l) : x = r ∨ x ∈ l := by
  induction l with
  | nil =>
    simp [insertRowSorted] at h
    exact Or.inl h
  | cons s ss ih =>
    rw [insertRowSorted] at h
    split at h
    · rcases List.mem_cons.mp h with h | h
      · exact Or.inl h
      · exact Or.inr h
    · rcases List.mem_cons.mp h with h | h
      · exact Or.inr (h ▸ List.mem_cons_self s ss)
      · rcases ih h with h | h
        · exact Or.inl h
        · exact Or.inr (List.mem_cons_of_mem s h)

/-- Sorting by username does not introduce rows. -/
theorem mem_of_mem_orderByUsername {x : Row} {l : List Row}
    (h : x ∈ orderByUsername l) : x ∈ l := by
  induction l with
  | nil =>
    rw [orderByUsername] at h
    simp at h
  | cons r rs ih =>
    rw [orderByUsername] at h
    rcases mem_of_mem_insertRowSorted h with h | h
    · exact h ▸ List.mem_cons_self r rs
    · exact List.mem_cons_of_mem r (ih h)

/-- C10: every roles list delivered at the public interface, by login_user
or attached to an entry of get_all_users, contains only members of
VALID_ROLES, whatever string the role column holds. -/
theorem delivered_roles_valid :
    (∀ (checkpw : Str → Str → Bool) (db : DB) (username password : Str) (user : User),
      login_user checkpw db username password = some user →
      ∀ role ∈ user.roles, role ∈ VALID_ROLES) ∧
    (∀ (db : DB), ∀ e ∈ get_all_users db, ∀ role ∈ e.roles, role ∈ VALID_ROLES) := by
  constructor
  · intro checkpw db username password user hlogin role hrole
    obtain ⟨row, -, -, huser⟩ :=
      login_user_some_inv checkpw db username password user hlogin
    rw [huser] at hrole
    exact parse_roles_subset row.role role hrole
  · intro db e he role hrole
    unfold get_all_users at he
    obtain ⟨r, hr, he⟩ := List.mem_map.mp he
    rw [← he] at hrole
    exact parse_roles_subset r.role role hrole

/-- Witness for delivered_roles_valid: a concrete login on the sample table
delivers the admin role, which the theorem places in VALID_ROLES. -/
theorem delivered_roles_valid_witness : "admin".data ∈ VALID_ROLES :=
  delivered_roles_valid.1 checkModel dbAlice "alice".data "pw".data
    ⟨"alice".data, ["admin".data]⟩ (by decide) "admin".data (by decide)
